import Mathlib

/-!
Verification of the skiff-dispatcher Node (index.js): a shallow embedding of
the dispatcher's operation router (`getsetnx`, `update`, `del`), its
operation-key helper (`ok`), the peer registry (`_remote`, `_remoteCall`,
`_removePeerGossip`), and the request coalescer it delegates to
(the callback-queue dependency, modelled from the spec).

JavaScript values relevant to the dispatcher are modelled by the inductive
`JSVal` (primitives only: the dispatcher compares values with `===`, which on
primitives is value equality). The gossip cluster's shared store and the
per-key callback queues are association lists. Each operation is a pure
function from a `NodeState` and its arguments to the successor state together
with a trace of `Effect`s: store reads/writes, callback deliveries, local
handler invocations and scheduled remote calls. The trace is what lets us
state side-effect-freedom ("never touches the Shared State Store or the
network") and exactly-once execution claims.
-/

/-- JavaScript primitive values as used by the dispatcher.
`undef` is the result of reading an absent store key; `nullv` is the
JS `null` that `del` stores. -/
inductive JSVal where
  | undef
  | nullv
  | str (s : String)
  | num (n : Int)
  | boolv (b : Bool)
deriving DecidableEq, Repr

/-- A reference to a completion callback: either a plain caller callback
(identified by a numeric id) or the aggregated callback that the
callback-queue returns for an operation key (invoking it fans the payload out
to every queued caller for that key). -/
inductive CbRef where
  | plain (cb : Nat)
  | aggregated (key : String)
deriving DecidableEq, Repr

/-- A remote invocation captured by a not-yet-connected peer connection:
`remote.once('connect', invoke)` stores the closure that will call
`client[method](...argv, cb)` once the connection is established. -/
structure PendingInvoke where
  method : String
  argv : List JSVal
  cb : CbRef
deriving DecidableEq, Repr

/-- An outbound peer connection (`Peer` / transport connection): its
`connected` flag and the invocations waiting on its one-time
connect signal. -/
structure Conn where
  connected : Bool
  waiters : List PendingInvoke
deriving DecidableEq, Repr

/-- Observable effects of one dispatcher operation, in program order. -/
inductive Effect where
  | storeRead (key : String)
  | storeWrite (key : String) (v : JSVal)
  | cbError (cb : CbRef) (msg : String)
  | cbSuccess (cb : CbRef) (v : JSVal)
  | cbAck (cb : CbRef)
  | handlerInvoke (rtype : String) (argv : List JSVal) (cb : CbRef)
  | remoteCall (leader : JSVal) (method : String) (argv : List JSVal) (cb : CbRef)
  | rpcInvoke (node : String) (method : String) (argv : List JSVal) (cb : CbRef)
  | gossipRemovePeer (peerId : String)
deriving DecidableEq, Repr

/-- Association-list lookup (JS object property read). -/
def getAssoc {α : Type} : List (String × α) → String → Option α
  | [], _ => none
  | (k, v) :: rest, key => if k = key then some v else getAssoc rest key

/-- Association-list update (JS object property write; inserts at the end
when the key is absent, as JS property insertion does). -/
def setAssoc {α : Type} : List (String × α) → String → α → List (String × α)
  | [], key, v => [(key, v)]
  | (k, w) :: rest, key, v =>
      if k = key then (key, v) :: rest else (k, w) :: setAssoc rest key v

/-- Association-list deletion (JS `delete obj[key]`). -/
def removeAssoc {α : Type} : List (String × α) → String → List (String × α)
  | [], _ => []
  | (k, w) :: rest, key => if k = key then rest else (k, w) :: removeAssoc rest key

/-- The gossip cluster's shared store: `cluster.get` yields `undefined` for an
absent key. -/
def storeGet (store : List (String × JSVal)) (key : String) : JSVal :=
  (getAssoc store key).getD JSVal.undef

/-- State of one dispatcher node.
`allowed` is the key set of `_allowedRemoteCalls` (the capability registry;
contains `getsetnx` and `update` initially, extended by `attachRemoteCall`).
`queues` is the callback-queue's pending-operation table.
`remotes` is `_remotes` (a nulled entry, as `_removePeerGossip` leaves, is
`some none`; an absent property is `none`).
`peerMeta` is the set of peer ids for which `skiff.peerMeta` has connection
metadata (the external membership provider's view). -/
structure NodeState where
  id : String
  allowed : List String
  store : List (String × JSVal)
  queues : List (String × List Nat)
  remoteIds : List String
  remotes : List (String × Option Conn)
  peerMeta : List String
deriving DecidableEq, Repr

/-- JS truthy-string test: `typeof v === 'string' && v` holds exactly for a
non-empty string. -/
def truthyString : JSVal → Bool
  | .str s => !(s == "")
  | _ => false

/-- `typeof v === 'string' && this._allowedRemoteCalls[v]`. -/
def allowedCall (allowed : List String) : JSVal → Bool
  | .str t => decide (t ∈ allowed)
  | _ => false

/-- Coercion used where the code has already validated a value is a string. -/
def jsStr : JSVal → String
  | .str s => s
  | _ => ""

/-- The key `[resourceType, resourceId].join('~')` computed by `getsetnx`
and `update`. -/
def operationKeyOf (rtype rid : String) : String :=
  rtype ++ "~" ++ rid

/-- Modelled from the spec: the Request Coalescer `attach` step — the
`callback-queue` dependency is not under src/. `callbackQueue.add(key, next)`
creates a queue holding `next` and returns the aggregated callback when no
queue exists for `key` (Bool `true` here: the caller owns execution);
otherwise it appends `next` to the existing queue and returns `false`. -/
def queueAdd (qs : List (String × List Nat)) (key : String) (cb : Nat) :
    List (String × List Nat) × Bool :=
  match getAssoc qs key with
  | some l => (setAssoc qs key (l ++ [cb]), false)
  | none => (setAssoc qs key [cb], true)

/-- Modelled from the spec: the Request Coalescer `resolve` step — invoking
the aggregated callback delivers the same payload to every queued waiter in
arrival order and deletes the pending operation. -/
def queueResolve (qs : List (String × List Nat)) (key : String)
    (err : Option String) (v : JSVal) :
    List (String × List Nat) × List (Nat × Option String × JSVal) :=
  match getAssoc qs key with
  | some l => (removeAssoc qs key, l.map (fun cb => (cb, err, v)))
  | none => (qs, [])

/-- `Node.prototype.getsetnx` (index.js lines 189-224): validate arguments,
consult the shared store, coalesce through the callback queue, then either
invoke the local handler (leader) or schedule a forwarded RPC (follower).
On the leader the handler receives
`(operationKey, resourceId, ...args, aggregatedCallback)` — the code does
`args.unshift(operationKey, resourceId); args.push(callback)`. -/
def getsetnx (st : NodeState) (resourceId resourceType : JSVal)
    (args : List JSVal) (next : Nat) : NodeState × List Effect :=
  if ¬ truthyString resourceId then
    (st, [.cbError (.plain next) "resourceId must be a truthy string"])
  else if ¬ allowedCall st.allowed resourceType then
    (st, [.cbError (.plain next) "remote call is not allowed"])
  else
    let operationKey := operationKeyOf (jsStr resourceType) (jsStr resourceId)
    let operationResult := storeGet st.store operationKey
    if operationResult ≠ JSVal.nullv ∧ operationResult ≠ JSVal.undef then
      (st, [.storeRead operationKey, .cbSuccess (.plain next) operationResult])
    else
      let qr := queueAdd st.queues operationKey next
      let st1 := { st with queues := qr.1 }
      if ¬ qr.2 then
        (st1, [.storeRead operationKey])
      else
        let currentLeader := storeGet st.store "leader"
        if currentLeader = JSVal.str st.id then
          (st1, [.storeRead operationKey, .storeRead "leader",
                 .handlerInvoke (jsStr resourceType)
                   (JSVal.str operationKey :: resourceId :: args)
                   (.aggregated operationKey)])
        else
          (st1, [.storeRead operationKey, .storeRead "leader",
                 .remoteCall currentLeader "getsetnx"
                   (resourceId :: resourceType :: args)
                   (.aggregated operationKey)])

/-- `Node.prototype.update` (index.js lines 245-274): validate (rejecting an
`undefined` value), short-circuit when the stored value already equals the
requested one, write locally when leader, otherwise forward. -/
def update (st : NodeState) (resourceId resourceType value : JSVal)
    (next : Nat) : NodeState × List Effect :=
  if ¬ truthyString resourceId then
    (st, [.cbError (.plain next) "resourceId must be a truthy string"])
  else if ¬ allowedCall st.allowed resourceType then
    (st, [.cbError (.plain next) "remote call is not allowed"])
  else if value = JSVal.undef then
    (st, [.cbError (.plain next) "value cant be set to undefined"])
  else
    let operationKey := operationKeyOf (jsStr resourceType) (jsStr resourceId)
    let currentValue := storeGet st.store operationKey
    if currentValue = value then
      (st, [.storeRead operationKey, .cbAck (.plain next)])
    else
      let currentLeader := storeGet st.store "leader"
      if currentLeader = JSVal.str st.id then
        ({ st with store := setAssoc st.store operationKey value },
         [.storeRead operationKey, .storeRead "leader",
          .storeWrite operationKey value, .cbAck (.plain next)])
      else
        (st, [.storeRead operationKey, .storeRead "leader",
              .remoteCall currentLeader "update"
                [resourceId, resourceType, value] (.plain next)])

/-- `Node.prototype.del` (index.js lines 232-234):
`this.update(resourceId, resourceType, null, next)`. -/
def del (st : NodeState) (resourceId resourceType : JSVal) (next : Nat) :
    NodeState × List Effect :=
  update st resourceId resourceType JSVal.nullv next

/-- `Node.prototype.ok` (index.js lines 163-175): throws when called with no
arguments, otherwise copies the arguments into an array and joins them
with `'~'`. The throw is modelled as `Except.error`. -/
def ok (args : List String) : Except String String :=
  match args with
  | [] => Except.error "arguments must not be empty"
  | _ => Except.ok (String.intercalate "~" args)

/-- `Node.prototype._remote` (index.js lines 337-347): return the cached
connection when online; otherwise, when the membership provider has
metadata for the peer, create, cache and return a fresh (unconnected)
connection; otherwise return nothing. A nulled `_remotes` entry is falsy,
so it behaves like an absent one. -/
def remoteFn (st : NodeState) (node : String) : NodeState × Option Conn :=
  match getAssoc st.remotes node with
  | some (some c) => (st, some c)
  | _ =>
      if node ∈ st.peerMeta then
        let c : Conn := { connected := false, waiters := [] }
        ({ st with remotes := setAssoc st.remotes node (some c) }, some c)
      else
        (st, none)

/-- `Node.prototype._remoteCall` (index.js lines 312-330): resolve the peer
connection; fail the callback when no metadata exists; invoke the remote
method when connected (failing when the client lacks the method — the client
exposes exactly `_remoteCallMethods`, the keys of `_allowedRemoteCalls`);
otherwise queue the invocation on the connection's one-time connect
signal. -/
def remoteCallFn (st : NodeState) (node : String) (method : String)
    (argv : List JSVal) (next : CbRef) : NodeState × List Effect :=
  let r := remoteFn st node
  match r.2 with
  | none => (r.1, [.cbError next ("could not find remote metadata for URL " ++ node)])
  | some c =>
      if c.connected then
        if method ∈ st.allowed then
          (r.1, [.rpcInvoke node method argv next])
        else
          (r.1, [.cbError next ("Method not found: " ++ method)])
      else
        let c2 : Conn := { c with waiters := c.waiters ++ [⟨method, argv, next⟩] }
        ({ r.1 with remotes := setAssoc r.1.remotes node (some c2) }, [])

/-- `Node.prototype._removePeerGossip` (index.js lines 412-419): splice the
peer id out of `_remoteIds` (first occurrence), null the `_remotes` entry and
remove the peer from the gossip cluster. No connection is closed, and
nothing is delivered to invocations waiting on the connection. -/
def removePeerGossip (st : NodeState) (peerId : String) :
    NodeState × List Effect :=
  ({ st with
       remoteIds := st.remoteIds.erase peerId,
       remotes := setAssoc st.remotes peerId none },
   [.gossipRemovePeer peerId])

/-- Sequential issue of `getsetnx` for each callback in `cbs` (one per
concurrent caller: the node is single-threaded, so concurrent callers are
consecutive event-loop turns), threading the state and concatenating the
effect traces. -/
def getsetnxCalls (resourceId resourceType : JSVal) (args : List JSVal) :
    NodeState → List Nat → NodeState × List Effect
  | st, [] => (st, [])
  | st, cb :: rest =>
      let r := getsetnx st resourceId resourceType args cb
      let r' := getsetnxCalls resourceId resourceType args r.1 rest
      (r'.1, r.2 ++ r'.2)

/-- Is this effect a local handler invocation? -/
def Effect.isHandlerInvoke : Effect → Bool
  | .handlerInvoke _ _ _ => true
  | _ => false

/-- Is this effect a scheduled forwarded RPC (`setImmediate(this._remoteCall, ...)`)? -/
def Effect.isRemoteCall : Effect → Bool
  | .remoteCall _ _ _ _ => true
  | _ => false

/-- Is this effect a shared-store write? -/
def Effect.isStoreWrite : Effect → Bool
  | .storeWrite _ _ => true
  | _ => false

/-- Is this effect a failure delivery to some callback? -/
def Effect.isCbError : Effect → Bool
  | .cbError _ _ => true
  | _ => false

/-- Number of local handler invocations in a trace. -/
def countHandlerInvokes (es : List Effect) : Nat :=
  (es.filter Effect.isHandlerInvoke).length

/-- Number of forwarded RPCs in a trace. -/
def countRemoteCalls (es : List Effect) : Nat :=
  (es.filter Effect.isRemoteCall).length

/-- Number of shared-store writes in a trace. -/
def countStoreWrites (es : List Effect) : Nat :=
  (es.filter Effect.isStoreWrite).length

/-- Example node: leader (`leader` entry equals its own id), with the two
core verbs plus one registered resource type `job`. -/
def exLeader : NodeState :=
  { id := "n1"
    allowed := ["getsetnx", "update", "job"]
    store := [("leader", JSVal.str "n1")]
    queues := []
    remoteIds := []
    remotes := []
    peerMeta := [] }

/-- Example node: follower of leader `n2`. -/
def exFollower : NodeState :=
  { exLeader with store := [("leader", JSVal.str "n2")] }

/-- Example leader with a cached value for key `job~x`. -/
def exCached : NodeState :=
  { exLeader with store := [("leader", JSVal.str "n1"), ("job~x", JSVal.str "v")] }

/-- Example leader whose key `job~x` holds an old value (for the update
idempotence and sentinel claims). -/
def exOld : NodeState :=
  { exLeader with store := [("leader", JSVal.str "n1"), ("job~x", JSVal.str "old")] }

/-- Example leader whose key `job~x` holds JS `null` (as `del` leaves it). -/
def exNulled : NodeState :=
  { exLeader with store := [("leader", JSVal.str "n1"), ("job~x", JSVal.nullv)] }

/-- Example node holding an unconnected cached connection to `peer1` with one
pending invocation waiting on its connect signal. -/
def exWaiting : NodeState :=
  { id := "n1"
    allowed := ["getsetnx", "update", "job"]
    store := [("leader", JSVal.str "peer1")]
    queues := [("job~x", [7])]
    remoteIds := ["peer1"]
    remotes := [("peer1", some { connected := false, waiters := [] })]
    peerMeta := ["peer1"] }

/-! ## Helper lemmas -/

theorem getAssoc_setAssoc_self {α : Type} (l : List (String × α)) (k : String) (v : α) :
    getAssoc (setAssoc l k v) k = some v := by
  induction l with
  | nil => simp [setAssoc, getAssoc]
  | cons hd tl ih =>
      obtain ⟨k', w⟩ := hd
      by_cases h : k' = k <;> simp [setAssoc, getAssoc, h, ih]

theorem getAssoc_setAssoc_ne {α : Type} (l : List (String × α)) (k k' : String) (v : α)
    (h : k' ≠ k) : getAssoc (setAssoc l k v) k' = getAssoc l k' := by
  induction l with
  | nil => simp [setAssoc, getAssoc, Ne.symm h]
  | cons hd tl ih =>
      obtain ⟨k0, w⟩ := hd
      by_cases h0 : k0 = k
      · subst h0
        simp [setAssoc, getAssoc, Ne.symm h]
      · by_cases h1 : k0 = k' <;> simp [setAssoc, getAssoc, h0, h1, h, ih]

theorem storeGet_setAssoc_self (l : List (String × JSVal)) (k : String) (v : JSVal) :
    storeGet (setAssoc l k v) k = v := by
  simp [storeGet, getAssoc_setAssoc_self]

theorem intercalate_go_foldl (rest : List String) (acc : String) :
    String.intercalate.go acc "~" rest
      = rest.foldl (fun a x => a ++ "~" ++ x) acc := by
  induction rest generalizing acc with
  | nil => rfl
  | cons x xs ih => simp [String.intercalate.go, List.foldl, ih]

theorem sep_cons_inj (l1 : List Char) (r1 l2 r2 : List Char)
    (h1 : '~' ∉ l1) (h2 : '~' ∉ l2)
    (heq : l1 ++ '~' :: r1 = l2 ++ '~' :: r2) : l1 = l2 ∧ r1 = r2 := by
  induction l1 generalizing l2 with
  | nil =>
      cases l2 with
      | nil => simpa using heq
      | cons b bs =>
          simp only [List.nil_append, List.cons_append, List.cons.injEq] at heq
          exact absurd (heq.1 ▸ List.mem_cons_self b bs) h2
  | cons a as ih =>
      cases l2 with
      | nil =>
          simp only [List.nil_append, List.cons_append, List.cons.injEq] at heq
          exact absurd (heq.1 ▸ List.mem_cons_self a as) h1
      | cons b bs =>
          simp only [List.cons_append, List.cons.injEq] at heq
          obtain ⟨hab, hrest⟩ := heq
          have h1' : '~' ∉ as := fun hm => h1 (List.mem_cons_of_mem _ hm)
          have h2' : '~' ∉ bs := fun hm => h2 (List.mem_cons_of_mem _ hm)
          obtain ⟨he, hr⟩ := ih bs h1' h2' hrest
          exact ⟨by rw [hab, he], hr⟩

theorem operationKeyOf_inj (t1 s1 t2 s2 : String)
    (h1 : '~' ∉ t1.data) (h2 : '~' ∉ t2.data)
    (heq : operationKeyOf t1 s1 = operationKeyOf t2 s2) : t1 = t2 ∧ s1 = s2 := by
  have hd : t1.data ++ '~' :: s1.data = t2.data ++ '~' :: s2.data := by
    have := congrArg String.data heq
    simpa [operationKeyOf, String.data_append] using this
  obtain ⟨ht, hs⟩ := sep_cons_inj t1.data s1.data t2.data s2.data h1 h2 hd
  constructor
  · cases t1; cases t2; exact congrArg String.mk ht
  · cases s1; cases s2; exact congrArg String.mk hs

theorem getsetnx_owner (st : NodeState) (s t : String) (args : List JSVal) (cb : Nat)
    (hs : s ≠ "") (ht : t ∈ st.allowed)
    (hmiss : storeGet st.store (operationKeyOf t s) = JSVal.nullv ∨
             storeGet st.store (operationKeyOf t s) = JSVal.undef)
    (hq : getAssoc st.queues (operationKeyOf t s) = none) :
    getsetnx st (.str s) (.str t) args cb
      = ({ st with queues := setAssoc st.queues (operationKeyOf t s) [cb] },
         if storeGet st.store "leader" = JSVal.str st.id then
           [.storeRead (operationKeyOf t s), .storeRead "leader",
            .handlerInvoke t
              (JSVal.str (operationKeyOf t s) :: JSVal.str s :: args)
              (.aggregated (operationKeyOf t s))]
         else
           [.storeRead (operationKeyOf t s), .storeRead "leader",
            .remoteCall (storeGet st.store "leader") "getsetnx"
              (JSVal.str s :: JSVal.str t :: args)
              (.aggregated (operationKeyOf t s))]) := by
  unfold getsetnx
  rcases hmiss with hm | hm <;>
    (simp [truthyString, hs, allowedCall, ht, jsStr, hm, queueAdd, hq]
     split <;> simp_all)

theorem getsetnx_subsequent (st : NodeState) (s t : String) (args : List JSVal)
    (cb : Nat) (l : List Nat)
    (hs : s ≠ "") (ht : t ∈ st.allowed)
    (hmiss : storeGet st.store (operationKeyOf t s) = JSVal.nullv ∨
             storeGet st.store (operationKeyOf t s) = JSVal.undef)
    (hq : getAssoc st.queues (operationKeyOf t s) = some l) :
    getsetnx st (.str s) (.str t) args cb
      = ({ st with queues := setAssoc st.queues (operationKeyOf t s) (l ++ [cb]) },
         [.storeRead (operationKeyOf t s)]) := by
  unfold getsetnx
  rcases hmiss with hm | hm <;>
    simp [truthyString, hs, allowedCall, ht, jsStr, hm, queueAdd, hq]

theorem getsetnxCalls_queued (s t : String) (args : List JSVal) (cbs : List Nat) :
    ∀ (st : NodeState) (l : List Nat),
      s ≠ "" → t ∈ st.allowed →
      (storeGet st.store (operationKeyOf t s) = JSVal.nullv ∨
       storeGet st.store (operationKeyOf t s) = JSVal.undef) →
      getAssoc st.queues (operationKeyOf t s) = some l →
      (getsetnxCalls (.str s) (.str t) args st cbs).1.store = st.store ∧
      getAssoc (getsetnxCalls (.str s) (.str t) args st cbs).1.queues
          (operationKeyOf t s) = some (l ++ cbs) ∧
      (getsetnxCalls (.str s) (.str t) args st cbs).2
        = List.replicate cbs.length (Effect.storeRead (operationKeyOf t s)) := by
  induction cbs with
  | nil =>
      intro st l hs ht hmiss hq
      simp [getsetnxCalls, hq]
  | cons cb rest ih =>
      intro st l hs ht hmiss hq
      have hstep := getsetnx_subsequent st s t args cb l hs ht hmiss hq
      have hq1 : getAssoc (setAssoc st.queues (operationKeyOf t s) (l ++ [cb]))
          (operationKeyOf t s) = some (l ++ [cb]) := getAssoc_setAssoc_self _ _ _
      obtain ⟨ha, hb, hc⟩ :=
        ih { st with queues := setAssoc st.queues (operationKeyOf t s) (l ++ [cb]) }
          (l ++ [cb]) hs ht hmiss hq1
      refine ⟨?_, ?_, ?_⟩
      · simp only [getsetnxCalls, hstep]
        exact ha
      · simp only [getsetnxCalls, hstep]
        rw [hb]
        simp
      · simp only [getsetnxCalls, hstep]
        rw [hc]
        simp [List.replicate_succ]

theorem countHandlerInvokes_append (a b : List Effect) :
    countHandlerInvokes (a ++ b) = countHandlerInvokes a + countHandlerInvokes b := by
  simp [countHandlerInvokes, List.filter_append]

theorem countRemoteCalls_append (a b : List Effect) :
    countRemoteCalls (a ++ b) = countRemoteCalls a + countRemoteCalls b := by
  simp [countRemoteCalls, List.filter_append]

theorem countHandlerInvokes_replicate_storeRead (n : Nat) (key : String) :
    countHandlerInvokes (List.replicate n (Effect.storeRead key)) = 0 := by
  induction n with
  | zero => rfl
  | succ n ih =>
      simp only [List.replicate_succ, countHandlerInvokes, List.filter,
        Effect.isHandlerInvoke] at ih ⊢
      exact ih

theorem countRemoteCalls_replicate_storeRead (n : Nat) (key : String) :
    countRemoteCalls (List.replicate n (Effect.storeRead key)) = 0 := by
  induction n with
  | zero => rfl
  | succ n ih =>
      simp only [List.replicate_succ, countRemoteCalls, List.filter,
        Effect.isRemoteCall] at ih ⊢
      exact ih

/-- Claim C1: for an operation key with no cached value in the shared store
and no pending operation, N concurrent `getsetnx` callers (all arriving
before any result is cached or any resolution occurs) trigger exactly one
execution — one local handler invocation when this node is leader, one
forwarded RPC when it is not — and resolving the single pending operation
delivers the same result to all N callers in arrival order. -/
theorem getsetnx_coalesces_single_execution (st : NodeState) (s t : String)
    (args : List JSVal) (cb : Nat) (cbs : List Nat) (v : JSVal)
    (hs : s ≠ "") (ht : t ∈ st.allowed)
    (hmiss : storeGet st.store (operationKeyOf t s) = JSVal.nullv ∨
             storeGet st.store (operationKeyOf t s) = JSVal.undef)
    (hq : getAssoc st.queues (operationKeyOf t s) = none) :
    (storeGet st.store "leader" = JSVal.str st.id →
        countHandlerInvokes (getsetnxCalls (.str s) (.str t) args st (cb :: cbs)).2 = 1 ∧
        countRemoteCalls (getsetnxCalls (.str s) (.str t) args st (cb :: cbs)).2 = 0) ∧
    (storeGet st.store "leader" ≠ JSVal.str st.id →
        countHandlerInvokes (getsetnxCalls (.str s) (.str t) args st (cb :: cbs)).2 = 0 ∧
        countRemoteCalls (getsetnxCalls (.str s) (.str t) args st (cb :: cbs)).2 = 1) ∧
    (queueResolve (getsetnxCalls (.str s) (.str t) args st (cb :: cbs)).1.queues
        (operationKeyOf t s) none v).2
      = (cb :: cbs).map (fun c => (c, (none : Option String), v)) := by
  have hstep := getsetnx_owner st s t args cb hs ht hmiss hq
  have hq1 : getAssoc (setAssoc st.queues (operationKeyOf t s) [cb])
      (operationKeyOf t s) = some [cb] := getAssoc_setAssoc_self _ _ _
  obtain ⟨ha, hb, hc⟩ :=
    getsetnxCalls_queued s t args cbs
      { st with queues := setAssoc st.queues (operationKeyOf t s) [cb] }
      [cb] hs ht hmiss hq1
  refine ⟨?_, ?_, ?_⟩
  · intro hl
    simp only [getsetnxCalls, hstep, if_pos hl]
    rw [hc, countHandlerInvokes_append, countRemoteCalls_append,
      countHandlerInvokes_replicate_storeRead, countRemoteCalls_replicate_storeRead]
    constructor <;> simp [countHandlerInvokes, countRemoteCalls, List.filter,
      Effect.isHandlerInvoke, Effect.isRemoteCall]
  · intro hl
    simp only [getsetnxCalls, hstep, if_neg hl]
    rw [hc, countHandlerInvokes_append, countRemoteCalls_append,
      countHandlerInvokes_replicate_storeRead, countRemoteCalls_replicate_storeRead]
    constructor <;> simp [countHandlerInvokes, countRemoteCalls, List.filter,
      Effect.isHandlerInvoke, Effect.isRemoteCall]
  · simp only [getsetnxCalls, hstep]
    simp only [queueResolve, hb]
    simp

/-- Witness for C1: three concurrent callers on the leader, resource type
`job`, key `job~x` absent: one handler invocation, no forwarded RPC, and all
three callers receive the result 9. -/
theorem getsetnx_coalesces_single_execution_witness :
    (storeGet exLeader.store "leader" = JSVal.str exLeader.id →
        countHandlerInvokes
          (getsetnxCalls (.str "x") (.str "job") [] exLeader [0, 1, 2]).2 = 1 ∧
        countRemoteCalls
          (getsetnxCalls (.str "x") (.str "job") [] exLeader [0, 1, 2]).2 = 0) ∧
    (storeGet exLeader.store "leader" ≠ JSVal.str exLeader.id →
        countHandlerInvokes
          (getsetnxCalls (.str "x") (.str "job") [] exLeader [0, 1, 2]).2 = 0 ∧
        countRemoteCalls
          (getsetnxCalls (.str "x") (.str "job") [] exLeader [0, 1, 2]).2 = 1) ∧
    (queueResolve (getsetnxCalls (.str "x") (.str "job") [] exLeader [0, 1, 2]).1.queues
        (operationKeyOf "job" "x") none (JSVal.num 9)).2
      = [0, 1, 2].map (fun c => (c, (none : Option String), JSVal.num 9)) :=
  getsetnx_coalesces_single_execution exLeader "x" "job" [] 0 [1, 2] (JSVal.num 9)
    (by decide) (by decide) (Or.inr (by decide)) (by decide)

/-- Claim C2 counterexample: on the leader, the registered handler is not
invoked with `(resourceId, args)` — the code prepends the operation key
(`args.unshift(operationKey, resourceId)`), so the handler receives
`(operationKey, resourceId, ...args)` plus the aggregated callback. -/
theorem getsetnx_leader_handler_args_cex :
    (getsetnx exLeader (.str "x") (.str "job") [JSVal.num 5] 0).2
      = [.storeRead "job~x", .storeRead "leader",
         .handlerInvoke "job" [JSVal.str "job~x", JSVal.str "x", JSVal.num 5]
           (.aggregated "job~x")] ∧
    [JSVal.str "job~x", JSVal.str "x", JSVal.num 5]
      ≠ [JSVal.str "x", JSVal.num 5] := by
  decide

/-- Claim C2 (amended): on the node whose identity equals the replicated
leader entry, with valid arguments and no cached value or pending operation
for the key, `getsetnx` invokes the handler registered for resourceType with
the argument list `(operationKey, resourceId, ...args)` and the aggregated
callback for the key; the result passed to that callback is delivered to
every coalesced caller for the key (here: the single caller). -/
theorem getsetnx_leader_invokes_handler (st : NodeState) (s t : String)
    (args : List JSVal) (cb : Nat) (v : JSVal)
    (hs : s ≠ "") (ht : t ∈ st.allowed)
    (hmiss : storeGet st.store (operationKeyOf t s) = JSVal.nullv ∨
             storeGet st.store (operationKeyOf t s) = JSVal.undef)
    (hq : getAssoc st.queues (operationKeyOf t s) = none)
    (hlead : storeGet st.store "leader" = JSVal.str st.id) :
    (getsetnx st (.str s) (.str t) args cb).2
      = [.storeRead (operationKeyOf t s), .storeRead "leader",
         .handlerInvoke t (JSVal.str (operationKeyOf t s) :: JSVal.str s :: args)
           (.aggregated (operationKeyOf t s))] ∧
    (queueResolve (getsetnx st (.str s) (.str t) args cb).1.queues
        (operationKeyOf t s) none v).2
      = [(cb, (none : Option String), v)] := by
  have h := getsetnx_owner st s t args cb hs ht hmiss hq
  constructor
  · simp [h, if_pos hlead]
  · simp [h, queueResolve, getAssoc_setAssoc_self]

/-- Witness for the amended C2 at a concrete leader state. -/
theorem getsetnx_leader_invokes_handler_witness :
    (getsetnx exLeader (.str "x") (.str "job") [JSVal.num 5] 4).2
      = [.storeRead (operationKeyOf "job" "x"), .storeRead "leader",
         .handlerInvoke "job"
           (JSVal.str (operationKeyOf "job" "x") :: JSVal.str "x" :: [JSVal.num 5])
           (.aggregated (operationKeyOf "job" "x"))] ∧
    (queueResolve (getsetnx exLeader (.str "x") (.str "job") [JSVal.num 5] 4).1.queues
        (operationKeyOf "job" "x") none (JSVal.num 1)).2
      = [(4, (none : Option String), JSVal.num 1)] :=
  getsetnx_leader_invokes_handler exLeader "x" "job" [JSVal.num 5] 4 (JSVal.num 1)
    (by decide) (by decide) (Or.inr (by decide)) (by decide) (by decide)

/-- Claim C3: when resourceId is not a truthy string or resourceType is not a
registered capability, each of `getsetnx`, `update` and `del` fails its
callback with an error and has no other effect: the state (store, queues,
remotes) is unchanged, the store is not even read, no pending operation is
created and no RPC is issued. -/
theorem invalid_args_reject_without_side_effects (st : NodeState)
    (resourceId resourceType value : JSVal) (args : List JSVal) (cb : Nat)
    (h : truthyString resourceId = false ∨
         allowedCall st.allowed resourceType = false) :
    (∃ m, getsetnx st resourceId resourceType args cb
            = (st, [.cbError (.plain cb) m])) ∧
    (∃ m, update st resourceId resourceType value cb
            = (st, [.cbError (.plain cb) m])) ∧
    (∃ m, del st resourceId resourceType cb = (st, [.cbError (.plain cb) m])) := by
  rcases h with h | h
  · exact ⟨⟨"resourceId must be a truthy string", by simp [getsetnx, h]⟩,
           ⟨"resourceId must be a truthy string", by simp [update, h]⟩,
           ⟨"resourceId must be a truthy string", by simp [del, update, h]⟩⟩
  · by_cases h1 : truthyString resourceId
    · exact ⟨⟨"remote call is not allowed", by simp [getsetnx, h1, h]⟩,
             ⟨"remote call is not allowed", by simp [update, h1, h]⟩,
             ⟨"remote call is not allowed", by simp [del, update, h1, h]⟩⟩
    · rw [Bool.not_eq_true] at h1
      exact ⟨⟨"resourceId must be a truthy string", by simp [getsetnx, h1]⟩,
             ⟨"resourceId must be a truthy string", by simp [update, h1]⟩,
             ⟨"resourceId must be a truthy string", by simp [del, update, h1]⟩⟩

/-- Witness for C3: resourceType `nope` is not registered. -/
theorem invalid_args_reject_without_side_effects_witness :
    (∃ m, getsetnx exLeader (.str "x") (.str "nope") [] 0
            = (exLeader, [.cbError (.plain 0) m])) ∧
    (∃ m, update exLeader (.str "x") (.str "nope") (JSVal.num 1) 0
            = (exLeader, [.cbError (.plain 0) m])) ∧
    (∃ m, del exLeader (.str "x") (.str "nope") 0
            = (exLeader, [.cbError (.plain 0) m])) :=
  invalid_args_reject_without_side_effects exLeader (.str "x") (.str "nope")
    (JSVal.num 1) [] 0 (Or.inr (by decide))

/-- Claim C4: when the shared store holds a value for the key that is neither
JS `null` nor `undefined`, `getsetnx` with valid arguments returns that
cached value to its callback, leaves the state unchanged (no pending
operation) and performs no handler invocation and no RPC — its only other
effect is the store read. -/
theorem getsetnx_cache_fast_path (st : NodeState) (s t : String)
    (args : List JSVal) (cb : Nat) (v : JSVal)
    (hs : s ≠ "") (ht : t ∈ st.allowed)
    (hv : storeGet st.store (operationKeyOf t s) = v)
    (hv1 : v ≠ JSVal.nullv) (hv2 : v ≠ JSVal.undef) :
    getsetnx st (.str s) (.str t) args cb
      = (st, [.storeRead (operationKeyOf t s), .cbSuccess (.plain cb) v]) := by
  unfold getsetnx
  simp [truthyString, hs, allowedCall, ht, jsStr, hv, hv1, hv2]

/-- Witness for C4 at a concrete state with `job~x` cached as `"v"`. -/
theorem getsetnx_cache_fast_path_witness :
    getsetnx exCached (.str "x") (.str "job") [] 2
      = (exCached,
         [.storeRead (operationKeyOf "job" "x"),
          .cbSuccess (.plain 2) (JSVal.str "v")]) :=
  getsetnx_cache_fast_path exCached "x" "job" [] 2 (JSVal.str "v")
    (by decide) (by decide) (by decide) (by decide) (by decide)

/-- Claim C5: on the leader, two consecutive `update` calls with the same
value perform exactly one shared-store write; the second call observes the
stored value equal to the requested one and acknowledges without writing. -/
theorem update_idempotent_one_write (st : NodeState) (s t : String) (v : JSVal)
    (cb1 cb2 : Nat)
    (hs : s ≠ "") (ht : t ∈ st.allowed) (hv : v ≠ JSVal.undef)
    (hlead : storeGet st.store "leader" = JSVal.str st.id)
    (hne : storeGet st.store (operationKeyOf t s) ≠ v) :
    update st (.str s) (.str t) v cb1
      = ({ st with store := setAssoc st.store (operationKeyOf t s) v },
         [.storeRead (operationKeyOf t s), .storeRead "leader",
          .storeWrite (operationKeyOf t s) v, .cbAck (.plain cb1)]) ∧
    update ({ st with store := setAssoc st.store (operationKeyOf t s) v })
        (.str s) (.str t) v cb2
      = ({ st with store := setAssoc st.store (operationKeyOf t s) v },
         [.storeRead (operationKeyOf t s), .cbAck (.plain cb2)]) ∧
    countStoreWrites
      ([.storeRead (operationKeyOf t s), .storeRead "leader",
        .storeWrite (operationKeyOf t s) v, .cbAck (.plain cb1)] ++
       [.storeRead (operationKeyOf t s), .cbAck (.plain cb2)]) = 1 ∧
    storeGet (setAssoc st.store (operationKeyOf t s) v) (operationKeyOf t s) = v := by
  refine ⟨?_, ?_, ?_, storeGet_setAssoc_self _ _ _⟩
  · unfold update
    simp [truthyString, hs, allowedCall, ht, jsStr, hv, hne, hlead]
  · unfold update
    simp [truthyString, hs, allowedCall, ht, jsStr, hv, storeGet_setAssoc_self]
  · simp [countStoreWrites, List.filter, Effect.isStoreWrite]

/-- Witness for C5: key `job~x` holds `"old"`; updating it twice to `"new"`
writes once. -/
theorem update_idempotent_one_write_witness :
    update exOld (.str "x") (.str "job") (JSVal.str "new") 0
      = ({ exOld with store := setAssoc exOld.store (operationKeyOf "job" "x") (JSVal.str "new") },
         [.storeRead (operationKeyOf "job" "x"), .storeRead "leader",
          .storeWrite (operationKeyOf "job" "x") (JSVal.str "new"), .cbAck (.plain 0)]) ∧
    update ({ exOld with store := setAssoc exOld.store (operationKeyOf "job" "x") (JSVal.str "new") })
        (.str "x") (.str "job") (JSVal.str "new") 1
      = ({ exOld with store := setAssoc exOld.store (operationKeyOf "job" "x") (JSVal.str "new") },
         [.storeRead (operationKeyOf "job" "x"), .cbAck (.plain 1)]) ∧
    countStoreWrites
      ([.storeRead (operationKeyOf "job" "x"), .storeRead "leader",
        .storeWrite (operationKeyOf "job" "x") (JSVal.str "new"), .cbAck (.plain 0)] ++
       [.storeRead (operationKeyOf "job" "x"), .cbAck (.plain 1)]) = 1 ∧
    storeGet (setAssoc exOld.store (operationKeyOf "job" "x") (JSVal.str "new"))
        (operationKeyOf "job" "x") = JSVal.str "new" :=
  update_idempotent_one_write exOld "x" "job" (JSVal.str "new") 0 1
    (by decide) (by decide) (by decide) (by decide) (by decide)

/-- Claim C6 counterexample: the sentinel `del` passes to `update` is JS
`null`, but the sentinel `update` rejects is `undefined` — they are not the
same value. `update` with the value `del` uses succeeds (here: a leader
write of `null` plus an ack, no error), so "update fails whenever its value
is that same unset sentinel" is false. -/
theorem del_update_sentinel_cex :
    del exOld (.str "x") (.str "job") 0
      = update exOld (.str "x") (.str "job") JSVal.nullv 0 ∧
    (update exOld (.str "x") (.str "job") JSVal.nullv 0).2
      = [.storeRead "job~x", .storeRead "leader",
         .storeWrite "job~x" JSVal.nullv, .cbAck (.plain 0)] ∧
    (update exOld (.str "x") (.str "job") JSVal.undef 0).2
      = [.cbError (.plain 0) "value cant be set to undefined"] := by
  decide

/-- Claim C6 (amended): `del` is exactly `update` with JS `null`; `update`
rejects only the distinct sentinel `undefined` with an InvalidArgument
error; since `null` and `undefined` differ, a `del` with valid arguments is
never stopped by that sentinel check. -/
theorem del_is_update_null (st : NodeState) (resourceId resourceType : JSVal)
    (cb cb2 : Nat) (s t : String)
    (hs : s ≠ "") (ht : t ∈ st.allowed) :
    del st resourceId resourceType cb
      = update st resourceId resourceType JSVal.nullv cb ∧
    update st (.str s) (.str t) JSVal.undef cb2
      = (st, [.cbError (.plain cb2) "value cant be set to undefined"]) ∧
    JSVal.nullv ≠ JSVal.undef := by
  refine ⟨rfl, ?_, by decide⟩
  unfold update
  simp [truthyString, hs, allowedCall, ht]

/-- Witness for the amended C6. -/
theorem del_is_update_null_witness :
    del exOld (.str "x") (.str "job") 0
      = update exOld (.str "x") (.str "job") JSVal.nullv 0 ∧
    update exOld (.str "x") (.str "job") JSVal.undef 1
      = (exOld, [.cbError (.plain 1) "value cant be set to undefined"]) ∧
    JSVal.nullv ≠ JSVal.undef :=
  del_is_update_null exOld (.str "x") (.str "job") 0 1 "x" "job"
    (by decide) (by decide)

/-- Claim C9: a stored JS `null` (as left by `del` through a leader `update`)
is treated like an absent value: `getsetnx` does not take the cache fast
path — instead it creates the pending operation and re-executes (local
handler on the leader, forwarded RpC otherwise); no cached value is
returned. -/
theorem getsetnx_null_value_not_cached (st : NodeState) (s t : String)
    (args : List JSVal) (cb : Nat)
    (hs : s ≠ "") (ht : t ∈ st.allowed)
    (hnull : storeGet st.store (operationKeyOf t s) = JSVal.nullv)
    (hq : getAssoc st.queues (operationKeyOf t s) = none) :
    (getsetnx st (.str s) (.str t) args cb).1
      = { st with queues := setAssoc st.queues (operationKeyOf t s) [cb] } ∧
    (getsetnx st (.str s) (.str t) args cb).2
      = (if storeGet st.store "leader" = JSVal.str st.id then
           [.storeRead (operationKeyOf t s), .storeRead "leader",
            .handlerInvoke t
              (JSVal.str (operationKeyOf t s) :: JSVal.str s :: args)
              (.aggregated (operationKeyOf t s))]
         else
           [.storeRead (operationKeyOf t s), .storeRead "leader",
            .remoteCall (storeGet st.store "leader") "getsetnx"
              (JSVal.str s :: JSVal.str t :: args)
              (.aggregated (operationKeyOf t s))]) := by
  have h := getsetnx_owner st s t args cb hs ht (Or.inl hnull) hq
  exact ⟨by rw [h], by rw [h]⟩

/-- Witness for C9: leader state whose key `job~x` holds `null`. -/
theorem getsetnx_null_value_not_cached_witness :
    (getsetnx exNulled (.str "x") (.str "job") [] 3).1
      = { exNulled with
            queues := setAssoc exNulled.queues (operationKeyOf "job" "x") [3] } ∧
    (getsetnx exNulled (.str "x") (.str "job") [] 3).2
      = (if storeGet exNulled.store "leader" = JSVal.str exNulled.id then
           [.storeRead (operationKeyOf "job" "x"), .storeRead "leader",
            .handlerInvoke "job"
              (JSVal.str (operationKeyOf "job" "x") :: JSVal.str "x" :: [])
              (.aggregated (operationKeyOf "job" "x"))]
         else
           [.storeRead (operationKeyOf "job" "x"), .storeRead "leader",
            .remoteCall (storeGet exNulled.store "leader") "getsetnx"
              (JSVal.str "x" :: JSVal.str "job" :: [])
              (.aggregated (operationKeyOf "job" "x"))]) :=
  getsetnx_null_value_not_cached exNulled "x" "job" [] 3
    (by decide) (by decide) (by decide) (by decide)

theorem getsetnx_reads_key_first (st : NodeState) (s t : String)
    (args : List JSVal) (cb : Nat)
    (hs : s ≠ "") (ht : t ∈ st.allowed) :
    (getsetnx st (.str s) (.str t) args cb).2.head?
      = some (.storeRead (operationKeyOf t s)) := by
  simp only [getsetnx]
  split_ifs <;> simp_all [truthyString, allowedCall, jsStr]

/-- Claim C7 counterexample: a remote call queued on an unconnected cached
connection to `peer1` (waiting on the connect signal), followed by the
Membership Provider left event for `peer1`: the waiter is present on the
connection, yet the removal's only effect is the gossip removal — the entry
is nulled, no failure (and no delivery at all) reaches the waiting caller,
contradicting "has its callback failed rather than left waiting forever". -/
theorem peer_left_waiter_not_failed_cex :
    (remoteCallFn exWaiting "peer1" "getsetnx"
        [JSVal.str "x", JSVal.str "job"] (.aggregated "job~x")).2 = [] ∧
    getAssoc (remoteCallFn exWaiting "peer1" "getsetnx"
        [JSVal.str "x", JSVal.str "job"] (.aggregated "job~x")).1.remotes "peer1"
      = some (some { connected := false
                     waiters := [{ method := "getsetnx"
                                   argv := [JSVal.str "x", JSVal.str "job"]
                                   cb := CbRef.aggregated "job~x" }] }) ∧
    (removePeerGossip (remoteCallFn exWaiting "peer1" "getsetnx"
        [JSVal.str "x", JSVal.str "job"] (.aggregated "job~x")).1 "peer1").2
      = [.gossipRemovePeer "peer1"] ∧
    getAssoc (removePeerGossip (remoteCallFn exWaiting "peer1" "getsetnx"
        [JSVal.str "x", JSVal.str "job"] (.aggregated "job~x")).1 "peer1").1.remotes
        "peer1"
      = some none := by
  decide

/-- Claim C7 (amended): on a Membership Provider left event, the dispatcher
splices the peer id out of `_remoteIds`, nulls the cached `_remotes` entry
and removes the peer from the gossip cluster — and nothing else: no
connection close, and no failure is delivered to callers waiting on the
connection's connect signal, so absent a later connect event they wait
forever (new calls to the departed peer fail with the missing-metadata
error instead). -/
theorem removePeerGossip_discards_without_failing_waiters (st : NodeState)
    (peerId : String) :
    removePeerGossip st peerId
      = ({ st with remoteIds := st.remoteIds.erase peerId,
                   remotes := setAssoc st.remotes peerId none },
         [.gossipRemovePeer peerId]) ∧
    getAssoc (removePeerGossip st peerId).1.remotes peerId = some none ∧
    (removePeerGossip st peerId).2.filter Effect.isCbError = [] := by
  refine ⟨rfl, ?_, rfl⟩
  simp [removePeerGossip, getAssoc_setAssoc_self]

/-- Claim C8 counterexample: the separator `~` is not excluded from the
fields, so two distinct (resourceType, resourceId) pairs map to the same
operation key. -/
theorem operationKey_collision_cex :
    operationKeyOf "a~b" "c" = operationKeyOf "a" "b~c" ∧
    ¬ (("a~b" : String) = "a" ∧ ("c" : String) = "b~c") := by
  decide

/-- Claim C8 (amended): the operation key depends only on the
(resourceType, resourceId) pair — for any two argument payloads `getsetnx`
consults the same store key — and the pair-to-key map is injective provided
`~` does not occur in the resourceType; the code never validates the fields
against the separator, so fields containing `~` can collide. -/
theorem operationKey_deterministic_and_cond_injective (st : NodeState)
    (s t : String) (args1 args2 : List JSVal) (cb : Nat)
    (t1 s1 t2 s2 : String)
    (hs : s ≠ "") (ht : t ∈ st.allowed)
    (h1 : '~' ∉ t1.data) (h2 : '~' ∉ t2.data) :
    (getsetnx st (.str s) (.str t) args1 cb).2.head?
      = some (.storeRead (operationKeyOf t s)) ∧
    (getsetnx st (.str s) (.str t) args2 cb).2.head?
      = some (.storeRead (operationKeyOf t s)) ∧
    (operationKeyOf t1 s1 = operationKeyOf t2 s2 → t1 = t2 ∧ s1 = s2) :=
  ⟨getsetnx_reads_key_first st s t args1 cb hs ht,
   getsetnx_reads_key_first st s t args2 cb hs ht,
   fun h => operationKeyOf_inj t1 s1 t2 s2 h1 h2 h⟩

/-- Witness for the amended C8. -/
theorem operationKey_deterministic_and_cond_injective_witness :
    (getsetnx exLeader (.str "x") (.str "job") [] 0).2.head?
      = some (.storeRead (operationKeyOf "job" "x")) ∧
    (getsetnx exLeader (.str "x") (.str "job") [JSVal.num 1] 0).2.head?
      = some (.storeRead (operationKeyOf "job" "x")) ∧
    (operationKeyOf "a" "b" = operationKeyOf "a" "b" →
       ("a" : String) = "a" ∧ ("b" : String) = "b") :=
  operationKey_deterministic_and_cond_injective exLeader "x" "job"
    [] [JSVal.num 1] 0 "a" "b" "a" "b"
    (by decide) (by decide) (by decide) (by decide)

/-- Claim C10: the key-building helper `ok` throws on an empty argument list
and, on a non-empty one, returns the arguments joined in order with `~`
(the iterated JS `join`). -/
theorem ok_empty_throws_nonempty_joins (a : String) (rest : List String) :
    ok [] = Except.error "arguments must not be empty" ∧
    ok (a :: rest)
      = Except.ok (rest.foldl (fun acc x => acc ++ "~" ++ x) a) := by
  refine ⟨rfl, ?_⟩
  have h1 : ok (a :: rest) = Except.ok (String.intercalate "~" (a :: rest)) := rfl
  have h2 : String.intercalate "~" (a :: rest)
      = String.intercalate.go a "~" rest := rfl
  rw [h1, h2, intercalate_go_foldl]
